import Mathlib

/-!
Verification development for the typerestjs resource-loading and
route-registration pipeline.

The definitions below are shallow embeddings of the TypeScript sources:
  * `src/helpers.ts`   — `replyWrapper` and the `replyBadRequest` /
    `replyBadResponse` / `replyFileTooLarge` / `replyUnknownError` helpers;
  * `src/server.ts`    — the global error handler, the `preValidation`
    body-normalisation hook, and route registration;
  * `src/resources.ts` — `loadService` / `loadController` / `loadRouter` /
    `loadResources`;
  * `src/utils.ts`     — `DATE_REGEX`, `isDateString`, `parseDatesInObject`,
    `exportIssues`.

JavaScript numbers that can be `NaN` are modelled as `Option Int`
(`none` = `NaN`); JSON-like runtime values are modelled by the `Json`
inductive (and, for the date-conversion pass, by the mutual `JVal`
family).  Asynchronous functions are modelled as pure functions into
`Except`, which collapses the sync/async distinction but preserves
result/exception propagation.
-/

namespace Typerest

/-- JSON-like runtime values (as produced by body parsing and the reply
helpers).  Numbers are modelled as integers. -/
inductive Json where
  | null : Json
  | bool (b : Bool) : Json
  | num (n : Int) : Json
  | str (s : String) : Json
  | arr (xs : List Json) : Json
  | obj (fields : List (String × Json)) : Json

/-- A JavaScript value that may be handed to `reply.status(...)`: either a
number (integers modelled; `NaN` is the separate `nan` case, since
`typeof NaN === 'number'`) or a string. -/
inductive JSVal where
  | num (n : Int) : JSVal
  | nan : JSVal
  | str (s : String) : JSVal
deriving DecidableEq

/-- `Number.isNaN(v)`: true only for the `NaN` number, with no coercion
(`Number.isNaN('abc') === false`). -/
def jsNumberIsNaN : JSVal → Bool
  | .nan => true
  | _ => false

/-- `v.toString()` for the values a status argument can take. -/
def jsToString : JSVal → String
  | .num n => toString n
  | .nan => "NaN"
  | .str s => s

/-- Leading decimal digits of a character list folded to a `Nat`; `none`
when there is no leading digit. -/
def digitsToNat (l : List Char) : Option Nat :=
  let ds := l.takeWhile Char.isDigit
  if ds.isEmpty then none
  else some (ds.foldl (fun acc c => acc * 10 + (c.toNat - '0'.toNat)) 0)

/-- JavaScript `parseInt` (default radix, decimal): skip leading
whitespace, accept an optional sign, then read leading decimal digits;
`none` models the `NaN` result.  (The hexadecimal `0x` prefix of the
builtin is not modelled; no caller relies on it.) -/
def jsParseInt (s : String) : Option Int :=
  let l := s.data.dropWhile (fun c => c = ' ' || c = '\t' || c = '\n' || c = '\r')
  match l with
  | '-' :: rest => (digitsToNat rest).map (fun n => -(n : Int))
  | '+' :: rest => (digitsToNat rest).map (fun n => (n : Int))
  | _ => (digitsToNat l).map (fun n => (n : Int))

/-- `NaN`-aware `<` on the modelled numbers: any comparison with `NaN`
is false. -/
def optLt : Option Int → Int → Bool
  | some k, m => decide (k < m)
  | none, _ => false

/-- Status computed by the `success` method of `replyWrapper`
(src/helpers.ts): `let intStatus = typeof status === 'number' ? status :
parseInt(status.toString()); if (Number.isNaN(status)) intStatus = 200`.
Note the guard tests the original `status`, not `intStatus`. -/
def replySuccessStatus (status : JSVal) : Option Int :=
  let intStatus : Option Int :=
    match status with
    | .num n => some n
    | .nan => none
    | .str s => jsParseInt (jsToString (.str s))
  if jsNumberIsNaN status then some 200 else intStatus

/-- Status computed by the `error` method of `replyWrapper`
(src/helpers.ts): same coercion, then
`if (Number.isNaN(status) || intStatus < 400) intStatus = 400`
(where `NaN < 400` is false). -/
def replyErrorStatus (status : JSVal) : Option Int :=
  let intStatus : Option Int :=
    match status with
    | .num n => some n
    | .nan => none
    | .str s => jsParseInt (jsToString (.str s))
  if jsNumberIsNaN status || optLt intStatus 400 then some 400 else intStatus

/-- A response handed to the underlying engine: HTTP status (`none` when
the JavaScript value passed to `reply.status` was `NaN`) and body. -/
structure SentResponse where
  status : Option Int
  body : Json

/-- `undefined`-or-string serialised into the reply body (an absent
optional message is modelled as JSON null). -/
def optJson : Option String → Json
  | some m => .str m
  | none => .null

/-- `replyWrapper(...).success(status, result)` — sends
`{success: true, data: result}` with the coerced status. -/
def replySuccess (status : JSVal) (data : Json) : SentResponse :=
  { status := replySuccessStatus status
    body := .obj [("success", .bool true), ("data", data)] }

/-- `replyWrapper(...).error(status, type, message)` — sends
`{success: false, error: {type, message}}` with the coerced status. -/
def replyError (status : JSVal) (ty : String) (message : Option String) : SentResponse :=
  { status := replyErrorStatus status
    body := .obj [("success", .bool false),
                  ("error", .obj [("type", .str ty), ("message", optJson message)])] }

/-- Keys of the object literal returned by `replyWrapper` in
src/helpers.ts. -/
def replyWrapperKeys : List String := ["success", "error", "custom"]

/-- Methods declared by the `ServerReply` interface in src/types.ts. -/
def serverReplyMethods : List String := ["success", "error", "custom", "html"]

/-! ### Route URL composition (src/resources.ts, `loadRouter`) -/

/-- `path.replace(/\/+$/, '')`: the regex deletes the leftmost position
from which the rest of the string is a nonempty run of `'/'` reaching the
end; every other character is kept. -/
def jsReplaceTrailingSlashes : List Char → List Char
  | [] => []
  | c :: rest =>
    if c = '/' && rest.all (fun d => d = '/') then []
    else c :: jsReplaceTrailingSlashes rest

/-- Spec-side statement of "all trailing '/' characters stripped":
drop a character iff it is a `'/'` and everything after it is dropped. -/
def stripTrailingSlashes : List Char → List Char
  | [] => []
  | c :: rest =>
    let r := stripTrailingSlashes rest
    if r = [] && c = '/' then [] else c :: r

/-- The URL registered by `loadRouter`:
`` `${PREFIX}${path.replace(/\/+$/, '')}` `` with
`const { PREFIX = '', ...router } = ...` supplying the default. -/
def routeUrl (prefixOpt : Option String) (path : String) : String :=
  (prefixOpt.getD "") ++ ⟨jsReplaceTrailingSlashes path.data⟩

/-- Modelled from the claim wording: the concatenation `PREFIX + path`
with all trailing slashes stripped from the concatenation. -/
def claimUrl (prefixOpt : Option String) (path : String) : String :=
  ⟨stripTrailingSlashes ((prefixOpt.getD "") ++ path).data⟩

theorem stripTrailingSlashes_eq_nil_iff (l : List Char) :
    stripTrailingSlashes l = [] ↔ l.all (fun d => d = '/') = true := by
  induction l with
  | nil => simp [stripTrailingSlashes]
  | cons c rest ih =>
    simp only [stripTrailingSlashes, List.all_cons]
    by_cases hr : stripTrailingSlashes rest = []
    · by_cases hc : c = '/'
      · simp [hr, hc, ih.mp hr]
      · simp [hr, hc]
    · have : ¬ (stripTrailingSlashes rest = [] && c = '/') = true := by
        simp [hr]
      simp only [this, if_false]
      constructor
      · intro h; exact absurd h (by simp)
      · intro h
        have h2 : rest.all (fun d => d = '/') = true := by
          simp only [Bool.and_eq_true] at h
          exact h.2
        exact absurd (ih.mpr h2) hr

theorem jsReplaceTrailingSlashes_eq_strip (l : List Char) :
    jsReplaceTrailingSlashes l = stripTrailingSlashes l := by
  induction l with
  | nil => rfl
  | cons c rest ih =>
    simp only [jsReplaceTrailingSlashes, stripTrailingSlashes, ← ih]
    by_cases hall : rest.all (fun d => d = '/') = true
    · have hnil : stripTrailingSlashes rest = [] :=
        (stripTrailingSlashes_eq_nil_iff rest).mpr hall
      rw [ih]
      by_cases hc : c = '/' <;> simp [hall, hc, hnil]
    · have hnil : ¬ stripTrailingSlashes rest = [] := by
        intro h; exact hall ((stripTrailingSlashes_eq_nil_iff rest).mp h)
      rw [ih]
      simp [hall, hnil]

/-- C2 counterexample: the claim reads the final URL as the concatenation
`PREFIX + path` with all trailing slashes stripped.  With
`PREFIX = "/hello/"` and `path = "/"` the code registers `"/hello/"`
(slashes are stripped from `path` only), while the claimed formula gives
`"/hello"`. -/
theorem c2_counterexample :
    routeUrl (some "/hello/") "/" = "/hello/" ∧
    claimUrl (some "/hello/") "/" = "/hello" ∧
    ("/hello/" : String) ≠ "/hello" := by
  refine ⟨by decide, by decide, by decide⟩

/-- C2 (amended): the registered URL is `PREFIX` (default `''`)
concatenated with `path` after stripping every trailing `'/'` from
`path` (not from the concatenation); in particular `PREFIX = '/hello'`
with `path = '/:name/'` registers `'/hello/:name'`. -/
theorem c2_route_url_composition :
    (∀ (prefixOpt : Option String) (path : String),
      routeUrl prefixOpt path = (prefixOpt.getD "") ++ ⟨stripTrailingSlashes path.data⟩) ∧
    (∀ (path : String), routeUrl none path = "" ++ ⟨stripTrailingSlashes path.data⟩) ∧
    routeUrl (some "/hello") "/:name/" = "/hello/:name" := by
  refine ⟨?_, ?_, by decide⟩
  · intro p path
    unfold routeUrl
    rw [jsReplaceTrailingSlashes_eq_strip]
  · intro path
    unfold routeUrl
    rw [jsReplaceTrailingSlashes_eq_strip]
    rfl

/-! ### Reply envelope (src/helpers.ts, `replyWrapper`) -/

/-- C3 counterexample: the claim says `success` coerces the status to an
integer ≥ 200 (default 200 when invalid) and `error` forces ≥ 400
(default 400 when invalid).  The code sends `success(100, ...)` with
status 100, and a non-numeric string status produces `NaN` (not 200/400)
for both methods, because the guard tests `Number.isNaN(status)` on the
original argument rather than the parsed value. -/
theorem c3_counterexample :
    (replySuccess (JSVal.num 100) (Json.str "d")).status = some 100 ∧
    ((100 : Int) < 200) ∧
    (replySuccess (JSVal.str "abc") (Json.str "d")).status = none ∧
    (replyError (JSVal.str "abc") "bad" none).status = none := by
  refine ⟨by decide, by decide, by decide, by decide⟩

/-- C3 (amended): `success(status, data)` always sends
`{success: true, data}`; the status is sent unchanged when `status` is a
number (even below 200), is 200 when `status` is the number `NaN`, and is
`parseInt(status)` when `status` is a string (`NaN`, not 200, when the
string does not parse).  `error(status, type, msg)` always sends
`{success: false, error: {type, message}}`; a numeric status is forced to
400 when below 400 and sent unchanged otherwise, `NaN` becomes 400, and a
string status is parsed with `parseInt`, forced to 400 only when the
parse succeeds below 400 (`NaN` when it does not parse). -/
theorem c3_reply_envelope :
    (∀ (n : Int) (d : Json), (replySuccess (.num n) d).status = some n) ∧
    (∀ (d : Json), (replySuccess .nan d).status = some 200) ∧
    (∀ (s : String) (d : Json), (replySuccess (.str s) d).status = jsParseInt s) ∧
    (∀ (v : JSVal) (d : Json),
      (replySuccess v d).body = Json.obj [("success", .bool true), ("data", d)]) ∧
    (∀ (n : Int) (t : String) (m : Option String),
      (replyError (.num n) t m).status = some (if n < 400 then 400 else n)) ∧
    (∀ (t : String) (m : Option String), (replyError .nan t m).status = some 400) ∧
    (∀ (s : String) (t : String) (m : Option String),
      (replyError (.str s) t m).status = (jsParseInt s).map (fun k => if k < 400 then 400 else k)) ∧
    (∀ (v : JSVal) (t : String) (m : Option String),
      (replyError v t m).body =
        Json.obj [("success", .bool false),
                  ("error", .obj [("type", .str t), ("message", optJson m)])]) := by
  refine ⟨fun n d => rfl, fun d => rfl, fun s d => rfl, fun v d => rfl, ?_, fun t m => rfl, ?_, fun v t m => rfl⟩
  · intro n t m
    simp only [replyError, replyErrorStatus, jsNumberIsNaN, optLt, Bool.false_or]
    by_cases h : n < 400 <;> simp [h]
  · intro s t m
    simp only [replyError, replyErrorStatus, jsNumberIsNaN, jsToString, Bool.false_or]
    cases h : jsParseInt s with
    | none => simp [optLt, h]
    | some k =>
      simp only [optLt, h, Option.map_some]
      by_cases hk : k < 400 <;> simp [hk]

/-! ### Reply contract surface (src/helpers.ts vs src/types.ts) -/

/-- C7: the `ServerReply` contract of src/types.ts declares an `html`
method, but the object `replyWrapper` actually returns provides only
`success`, `error` and `custom` — `html` is absent, so invoking it on the
wrapped reply is undefined at runtime. -/
theorem c7_html_missing :
    "html" ∈ serverReplyMethods ∧ "html" ∉ replyWrapperKeys ∧
    "success" ∈ replyWrapperKeys ∧ "error" ∈ replyWrapperKeys ∧
    "custom" ∈ replyWrapperKeys := by
  refine ⟨by decide, by decide, by decide, by decide, by decide⟩

/-! ### Resource discovery (src/resources.ts, `loadResources`) -/

/-- The regex word class `\w` (same under the `i` flag). -/
def isWordChar (c : Char) : Bool := c.isAlpha || c.isDigit || c = '_'

/-- `\w+`: nonempty and word characters only. -/
def isWordStr (l : List Char) : Bool := !l.isEmpty && l.all isWordChar

/-- Split a character list on a separator character (the semantics of
`String.splitOn` for a one-character separator). -/
def splitChar (sep : Char) : List Char → List (List Char)
  | [] => [[]]
  | c :: rest =>
    let r := splitChar sep rest
    if c = sep then [] :: r
    else
      match r with
      | h :: t => (c :: h) :: t
      | [] => [[c]]

/-- Lower-casing, for the regex `i` flag. -/
def lowerChars (l : List Char) : List Char := l.map Char.toLower

/-- The role alternation of the discovery regex. -/
def roleNames : List (List Char) :=
  ["controller".data, "router".data, "schema".data, "service".data]

/-- The match
`file.match(/resources\/(\w+)\/\w+\.(controller|router|schema|service)\.js$/i)`
from `loadResources`, returning the two capture groups (resource name and
role, in their original case).  Being end-anchored, the regex matches iff
the path decomposes as
`… "resources/" ++ name ++ "/" ++ stem ++ "." ++ role ++ ".js"` with
`name` and `stem` nonempty `\w+` runs and the literals compared
case-insensitively; the decomposition is unique, so the leftmost-match
rule of `String.prototype.match` needs no further modelling. -/
def matchResourceFile (file : String) : Option (String × String) :=
  match (splitChar '/' file.data).reverse with
  | last :: name :: dir :: _ =>
    if "resources".data.isSuffixOf (lowerChars dir) && isWordStr name then
      match splitChar '.' last with
      | [stem, role, ext] =>
        if isWordStr stem && roleNames.contains (lowerChars role)
            && lowerChars ext = "js".data then
          some (⟨name⟩, ⟨role⟩)
        else none
      | _ => none
    else none
  | _ => none

/-- JavaScript object-spread update `{...m, [k]: v}`: an existing key
keeps its position and takes the new value, a fresh key is appended. -/
def updateAssoc {α : Type} (m : List (String × α)) (k : String) (v : α) :
    List (String × α) :=
  if m.any (fun p => p.1 == k) then
    m.map (fun p => if p.1 == k then (k, v) else p)
  else m ++ [(k, v)]

/-- Property lookup on the association-list model of a JS object. -/
def lookupA {α : Type} (m : List (String × α)) (k : String) : Option α :=
  match m with
  | [] => none
  | p :: rest => if p.1 == k then some p.2 else lookupA rest k

/-- One step of the `files.reduce` accumulator in `loadResources`:
`{ ...resources, [name]: { ...resources[name], [type]: file } }`
when the file matches, the accumulator unchanged otherwise. -/
def groupStep (acc : List (String × List (String × String))) (file : String) :
    List (String × List (String × String)) :=
  match matchResourceFile file with
  | none => acc
  | some (name, ty) =>
    updateAssoc acc name (updateAssoc ((lookupA acc name).getD []) ty file)

/-- The grouping computed by `loadResources` from the discovered file
list (starting from the empty object). -/
def groupResources (files : List String) : List (String × List (String × String)) :=
  files.foldl groupStep []

/-- `resources[name][type]` on the grouped result. -/
def lookupRole (g : List (String × List (String × String))) (name ty : String) :
    Option String :=
  match lookupA g name with
  | none => none
  | some grp => lookupA grp ty

/-- Modelled from the claim wording of C1: a path matching
`resources/<name>/<anything>.<role>.<ext>` for a role in
{controller, router, schema, service}, with `<name>`, `<anything>` and
`<ext>` arbitrary nonempty segments free of `'/'`. -/
def claimResourcePattern (p : String) : Prop :=
  ∃ (pre name stem role ext : String),
    role ∈ (["controller", "router", "schema", "service"] : List String) ∧
    name ≠ "" ∧ (∀ c ∈ name.data, c ≠ '/') ∧
    stem ≠ "" ∧ (∀ c ∈ stem.data, c ≠ '/') ∧
    ext ≠ "" ∧ (∀ c ∈ ext.data, c ≠ '/') ∧
    p = pre ++ "resources/" ++ name ++ "/" ++ stem ++ "." ++ role ++ "." ++ ext

theorem lookupA_map_update {α : Type} (m : List (String × α)) (k : String) (v : α) :
    lookupA (m.map (fun p => if p.1 == k then (k, v) else p)) k =
      if m.any (fun p => p.1 == k) then some v else none := by
  induction m with
  | nil => rfl
  | cons p rest ih =>
    cases hpk : (p.1 == k)
    · simp only [List.map_cons, hpk, Bool.false_eq_true, if_false, lookupA,
        List.any_cons, Bool.false_or]
      exact ih
    · simp [lookupA, hpk]

theorem lookupA_map_update_ne {α : Type} (m : List (String × α)) (k : String) (v : α)
    (k' : String) (h : k' ≠ k) :
    lookupA (m.map (fun p => if p.1 == k then (k, v) else p)) k' = lookupA m k' := by
  have hkk' : (k == k') = false := by
    simp only [beq_eq_false_iff_ne, ne_eq]
    intro hh; exact h hh.symm
  induction m with
  | nil => rfl
  | cons p rest ih =>
    cases hpk : (p.1 == k)
    · simp only [List.map_cons, hpk, Bool.false_eq_true, if_false, lookupA]
      cases hpk' : (p.1 == k')
      · simp only [Bool.false_eq_true, if_false]
        exact ih
      · simp
    · have hpk2 : p.1 = k := by simpa using hpk
      simp only [List.map_cons, hpk2, beq_self_eq_true, if_true, lookupA, hkk',
        Bool.false_eq_true, if_false]
      exact ih

theorem lookupA_append {α : Type} (m l : List (String × α)) (k : String) :
    lookupA (m ++ l) k =
      match lookupA m k with
      | some v => some v
      | none => lookupA l k := by
  induction m with
  | nil => rfl
  | cons p rest ih =>
    cases hpk : (p.1 == k)
    · simp only [List.cons_append, lookupA, hpk, Bool.false_eq_true, if_false]
      exact ih
    · simp [lookupA, hpk]

theorem lookupA_none_of_any_false {α : Type} (m : List (String × α)) (k : String)
    (h : m.any (fun p => p.1 == k) = false) : lookupA m k = none := by
  induction m with
  | nil => rfl
  | cons p rest ih =>
    simp only [List.any_cons, Bool.or_eq_false_iff] at h
    simp only [lookupA, h.1, Bool.false_eq_true, if_false]
    exact ih h.2

theorem lookupA_updateAssoc_self {α : Type} (m : List (String × α)) (k : String) (v : α) :
    lookupA (updateAssoc m k v) k = some v := by
  unfold updateAssoc
  by_cases h : m.any (fun p => p.1 == k)
  · rw [if_pos h, lookupA_map_update, if_pos h]
  · rw [if_neg h, lookupA_append]
    rw [lookupA_none_of_any_false m k (by rwa [Bool.not_eq_true] at h)]
    simp [lookupA]

theorem lookupA_updateAssoc_ne {α : Type} (m : List (String × α)) (k : String) (v : α)
    (k' : String) (h : k' ≠ k) :
    lookupA (updateAssoc m k v) k' = lookupA m k' := by
  unfold updateAssoc
  by_cases hm : m.any (fun p => p.1 == k)
  · rw [if_pos hm, lookupA_map_update_ne m k v k' h]
  · rw [if_neg hm, lookupA_append]
    have hx : lookupA [(k, v)] k' = none := by
      have hb : (k == k') = false := by
        simp only [beq_eq_false_iff_ne, ne_eq]
        intro hh; exact h hh.symm
      simp [lookupA, hb]
    rw [hx]
    cases lookupA m k' <;> rfl

theorem lookupRole_groupStep (acc : List (String × List (String × String)))
    (file n t : String) :
    lookupRole (groupStep acc file) n t =
      if matchResourceFile file = some (n, t) then some file
      else lookupRole acc n t := by
  unfold groupStep
  cases hm : matchResourceFile file with
  | none => simp
  | some p =>
    obtain ⟨n', t'⟩ := p
    by_cases hn : n' = n
    · subst hn
      by_cases ht : t' = t
      · subst ht
        unfold lookupRole
        rw [lookupA_updateAssoc_self, if_pos rfl]
        exact lookupA_updateAssoc_self _ _ _
      · have hcond : ¬ (some (n', t') = some (n', t)) := by
          intro hh; exact ht (by injection hh with h1; injection h1)
        unfold lookupRole
        rw [lookupA_updateAssoc_self, if_neg hcond]
        show lookupA (updateAssoc ((lookupA acc n').getD []) t' file) t = _
        rw [lookupA_updateAssoc_ne _ _ _ _ (fun hh => ht hh.symm)]
        cases hg : lookupA acc n' <;> rfl
    · have hcond : ¬ (some (n', t') = some (n, t)) := by
        intro hh; exact hn (by injection hh with h1; injection h1)
      unfold lookupRole
      rw [lookupA_updateAssoc_ne _ _ _ _ (fun hh => hn hh.symm), if_neg hcond]

theorem lookupRole_foldl (files : List String)
    (acc : List (String × List (String × String))) (n t : String) :
    lookupRole (files.foldl groupStep acc) n t =
      match files.reverse.find? (fun f => matchResourceFile f == some (n, t)) with
      | some g => some g
      | none => lookupRole acc n t := by
  induction files generalizing acc with
  | nil => rfl
  | cons f rest ih =>
    simp only [List.foldl_cons, List.reverse_cons, List.find?_append]
    rw [ih]
    cases hr : rest.reverse.find? (fun f => matchResourceFile f == some (n, t)) with
    | some g => simp [Option.orElse]
    | none =>
      simp only [Option.orElse, Option.none_orElse]
      rw [lookupRole_groupStep]
      by_cases hf : matchResourceFile f = some (n, t)
      · have hb : (matchResourceFile f == some (n, t)) = true := by simp [hf]
        simp [List.find?, hb, hf]
      · have hb : (matchResourceFile f == some (n, t)) = false := by simp [hf]
        simp [List.find?, hb, hf]

/-- C1 counterexample: `dist/resources/foo/my-file.controller.js` is a
path the glob can discover and it matches the claimed pattern
`resources/<name>/<anything>.<role>.<ext>` (name `foo`, anything
`my-file`, role `controller`, ext `js`), yet `loadResources` groups
nothing from it — its regex only admits `\w+` file stems, and `my-file`
contains `'-'`. -/
theorem c1_counterexample :
    claimResourcePattern "dist/resources/foo/my-file.controller.js" ∧
    groupResources ["dist/resources/foo/my-file.controller.js"] = [] := by
  constructor
  · exact ⟨"dist/", "foo", "my-file", "controller", "js",
      by decide, by decide, by decide, by decide, by decide, by decide,
      by decide, by decide⟩
  · decide

/-- C1 (amended): with the pattern restricted to what the code's regex
admits — `resources/<name>/<stem>.<role>.js` where `<name>` and `<stem>`
are nonempty `\w+` runs and role/extension are matched case-insensitively
— discovery groups exactly the matching paths by name and role:
`resources[n][t]` is the **last** file matching `(n, t)` (last write
wins), every binding in the output is a matching input file, each
matching file's slot is occupied by such a file, a non-matching path is
absent from every group, and zero matching paths yield the empty
mapping. -/
theorem c1_discovery_grouping :
    (∀ (files : List String) (n t : String),
      lookupRole (groupResources files) n t =
        files.reverse.find? (fun f => matchResourceFile f == some (n, t))) ∧
    (∀ (files : List String), (∀ f ∈ files, matchResourceFile f = none) →
      groupResources files = []) ∧
    (∀ (files : List String) (f n t : String),
      lookupRole (groupResources files) n t = some f →
      f ∈ files ∧ matchResourceFile f = some (n, t)) ∧
    (∀ (files : List String) (f n t : String), f ∈ files →
      matchResourceFile f = some (n, t) →
      ∃ g, lookupRole (groupResources files) n t = some g ∧ g ∈ files ∧
        matchResourceFile g = some (n, t)) := by
  have hchar : ∀ (files : List String) (n t : String),
      lookupRole (groupResources files) n t =
        files.reverse.find? (fun f => matchResourceFile f == some (n, t)) := by
    intro files n t
    rw [groupResources, lookupRole_foldl]
    cases files.reverse.find? (fun f => matchResourceFile f == some (n, t)) <;> rfl
  refine ⟨hchar, ?_, ?_, ?_⟩
  · intro files hall
    induction files with
    | nil => rfl
    | cons f rest ih =>
      have h1 : matchResourceFile f = none := hall f (by simp)
      have h2 : ∀ g ∈ rest, matchResourceFile g = none := by
        intro g hg; exact hall g (by simp [hg])
      show (f :: rest).foldl groupStep [] = []
      simp only [List.foldl_cons, groupStep, h1]
      exact ih h2
  · intro files f n t h
    rw [hchar] at h
    have hp := List.find?_some h
    have hm := List.mem_of_find?_eq_some h
    refine ⟨List.mem_reverse.mp hm, by simpa using hp⟩
  · intro files f n t hmem hmatch
    have hex : ∃ g ∈ files.reverse, (matchResourceFile g == some (n, t)) = true :=
      ⟨f, List.mem_reverse.mpr hmem, by simp [hmatch]⟩
    have hsome := List.find?_isSome.mpr hex
    cases hg : files.reverse.find? (fun g => matchResourceFile g == some (n, t)) with
    | none => rw [hg] at hsome; simp at hsome
    | some g =>
      refine ⟨g, by rw [hchar, hg], ?_, ?_⟩
      · exact List.mem_reverse.mp (List.mem_of_find?_eq_some hg)
      · simpa using List.find?_some hg

/-- Witness for `c1_discovery_grouping` at a concrete discovered file. -/
theorem c1_discovery_grouping_witness :
    matchResourceFile "dist/resources/hello/hello.router.js" = some ("hello", "router") ∧
    (∃ g, lookupRole (groupResources ["dist/resources/hello/hello.router.js"])
        "hello" "router" = some g ∧
      g ∈ ["dist/resources/hello/hello.router.js"] ∧
      matchResourceFile g = some ("hello", "router")) :=
  ⟨by decide,
    c1_discovery_grouping.2.2.2 ["dist/resources/hello/hello.router.js"]
      "dist/resources/hello/hello.router.js" "hello" "router" (by decide) (by decide)⟩

/-! ### Global error handler (src/server.ts `setErrorHandler`,
src/helpers.ts reply helpers) -/

/-- A Zod validation issue (the fields destructured by the reply
helpers; further issue metadata is spread through unchanged and not
modelled). -/
structure Issue where
  path : List String
  code : String
  message : String

/-- The issue projection used both by `exportIssues` (src/utils.ts) and
inline by `replyBadRequest` / `replyBadResponse` (src/helpers.ts):
`{field: path.join('.'), type: code, message}`. -/
def exportIssue (i : Issue) : Json :=
  .obj [("field", .str (String.intercalate "." i.path)),
        ("type", .str i.code),
        ("message", .str i.message)]

/-- `exportIssues` / the `details` array of the error replies. -/
def exportIssues (issues : List Issue) : Json :=
  .arr (issues.map exportIssue)

/-- Errors reaching the global handler: `RequestError`, `ResponseError`
(src/server.ts classes), or any other error with an optional Fastify
`code` and a message. -/
inductive SrvError where
  | requestErr (method url : String) (issues : List Issue)
  | responseErr (method url : String) (issues : List Issue)
  | generic (code : Option String) (message : String)

def badRequestMessage : String := "Oops! Looks like there was a problem with your request."

def badResponseMessage : String :=
  "Something went wrong with your request while generating the response"

def fileTooLargeMessage : String := "Oops! The file you\x27re trying to upload is too large."

def unknownErrorMessage : String := "An unknown error has occurred during the request."

/-- `replyBadRequest` (src/helpers.ts): status 400 with the structured
`bad_request` envelope carrying the issue details. -/
def replyBadRequest (issues : List Issue) : SentResponse :=
  { status := some 400
    body := .obj [("success", .bool false),
                  ("error", .obj [("type", .str "bad_request"),
                                  ("message", .str badRequestMessage),
                                  ("details", exportIssues issues)])] }

/-- `replyBadResponse` (src/helpers.ts): status 500, `bad_response`. -/
def replyBadResponse (issues : List Issue) : SentResponse :=
  { status := some 500
    body := .obj [("success", .bool false),
                  ("error", .obj [("type", .str "bad_response"),
                                  ("message", .str badResponseMessage),
                                  ("details", exportIssues issues)])] }

/-- `replyFileTooLarge` (src/helpers.ts): status 413, no details. -/
def replyFileTooLarge : SentResponse :=
  { status := some 413
    body := .obj [("success", .bool false),
                  ("error", .obj [("type", .str "file_too_large"),
                                  ("message", .str fileTooLargeMessage)])] }

/-- `replyUnknownError` (src/helpers.ts): status 500, `unknown_error`. -/
def replyUnknownError : SentResponse :=
  { status := some 500
    body := .obj [("success", .bool false),
                  ("error", .obj [("type", .str "unknown_error"),
                                  ("message", .str unknownErrorMessage)])] }

/-- The dispatch of `setErrorHandler` in the `Server` constructor
(src/server.ts): `instanceof RequestError` → bad request,
`instanceof ResponseError` → bad response,
`error.code === 'FST_REQ_FILE_TOO_LARGE'` → file too large, otherwise
unknown error. -/
def setErrorHandler (e : SrvError) : SentResponse :=
  match e with
  | .requestErr _ _ issues => replyBadRequest issues
  | .responseErr _ _ issues => replyBadResponse issues
  | .generic code _ =>
    if code = some "FST_REQ_FILE_TOO_LARGE" then replyFileTooLarge else replyUnknownError

/-- The uniform error envelope
`{success: false, error: {type, message, details?}}` as the spec words
it. -/
def errorEnvelope (ty message : String) (details : Option Json) : Json :=
  .obj [("success", .bool false),
        ("error", .obj ([("type", Json.str ty), ("message", Json.str message)] ++
          (match details with
           | some d => [("details", d)]
           | none => [])))]

/-- C6: the global error handler classifies every error into exactly one
of: 400 `bad_request` with issue details for a request-schema mismatch,
500 `bad_response` with issue details for a response-schema mismatch,
413 `file_too_large` for the upload parser's size error
(`FST_REQ_FILE_TOO_LARGE`), and 500 `unknown_error` for everything else
— always in the uniform `{success: false, error: {type, message,
details?}}` envelope. -/
theorem c6_error_classification :
    (∀ (e : SrvError), ∃ st ty msg details,
      setErrorHandler e = ⟨some st, errorEnvelope ty msg details⟩) ∧
    (∀ (m u : String) (iss : List Issue),
      setErrorHandler (.requestErr m u iss) =
        ⟨some 400, errorEnvelope "bad_request" badRequestMessage (some (exportIssues iss))⟩) ∧
    (∀ (m u : String) (iss : List Issue),
      setErrorHandler (.responseErr m u iss) =
        ⟨some 500, errorEnvelope "bad_response" badResponseMessage (some (exportIssues iss))⟩) ∧
    (∀ (msg : String),
      setErrorHandler (.generic (some "FST_REQ_FILE_TOO_LARGE") msg) =
        ⟨some 413, errorEnvelope "file_too_large" fileTooLargeMessage none⟩) ∧
    (∀ (code : Option String) (msg : String), code ≠ some "FST_REQ_FILE_TOO_LARGE" →
      setErrorHandler (.generic code msg) =
        ⟨some 500, errorEnvelope "unknown_error" unknownErrorMessage none⟩) := by
  refine ⟨?_, fun m u iss => rfl, fun m u iss => rfl, fun msg => rfl, ?_⟩
  · intro e
    cases e with
    | requestErr m u iss =>
      exact ⟨400, "bad_request", badRequestMessage, some (exportIssues iss), rfl⟩
    | responseErr m u iss =>
      exact ⟨500, "bad_response", badResponseMessage, some (exportIssues iss), rfl⟩
    | generic code msg =>
      by_cases hc : code = some "FST_REQ_FILE_TOO_LARGE"
      · refine ⟨413, "file_too_large", fileTooLargeMessage, none, ?_⟩
        show (if code = some "FST_REQ_FILE_TOO_LARGE" then replyFileTooLarge
              else replyUnknownError) = _
        rw [if_pos hc]
        rfl
      · refine ⟨500, "unknown_error", unknownErrorMessage, none, ?_⟩
        show (if code = some "FST_REQ_FILE_TOO_LARGE" then replyFileTooLarge
              else replyUnknownError) = _
        rw [if_neg hc]
        rfl
  · intro code msg h
    show (if code = some "FST_REQ_FILE_TOO_LARGE" then replyFileTooLarge
          else replyUnknownError) = _
    rw [if_neg h]
    rfl

/-- Witness for `c6_error_classification`: a concrete unclassified error
code is mapped to the 500 `unknown_error` envelope. -/
theorem c6_error_classification_witness :
    (some "ECONNRESET" : Option String) ≠ some "FST_REQ_FILE_TOO_LARGE" ∧
    setErrorHandler (.generic (some "ECONNRESET") "socket hang up") =
      ⟨some 500, errorEnvelope "unknown_error" unknownErrorMessage none⟩ :=
  ⟨by decide,
    c6_error_classification.2.2.2.2 (some "ECONNRESET") "socket hang up" (by decide)⟩

/-! ### Middleware chain (src/resources.ts `loadRouter`,
`preValidation` hook) -/

/-- The raw Fastify reply object (opaque; only its identity matters to
`custom`). -/
structure RawReply where
  rid : Nat

/-- The restricted contract `replyWrapper` hands to middlewares and
handlers. -/
structure WrappedReply where
  success : JSVal → Json → SentResponse
  error : JSVal → String → Option String → SentResponse
  custom : Unit → RawReply

/-- `replyWrapper(reply)` (src/helpers.ts): the wrapped contract whose
`success`/`error` serialise the envelopes above and whose `custom`
returns the raw reply. -/
def replyWrapper (reply : RawReply) : WrappedReply :=
  { success := replySuccess, error := replyError, custom := fun _ => reply }

/-- Request state threaded through middlewares (middlewares may mutate
the request; modelled as state passing). -/
abbrev Req := List String

/-- A middleware `(request, reply) => Promise<any>`: may update the
request or throw. -/
abbrev Middleware : Type := Req → WrappedReply → Except SrvError Req

/-- A route handler `(request, reply) => Promise<Reply>`. -/
abbrev Handler : Type := Req → WrappedReply → Except SrvError SentResponse

/-- The `preValidation` hook of `loadRouter`:
`for (let middleware of middlewares ?? []) await middleware(req,
replyWrapper(reply))` — sequential, stopping at the first rejection. -/
def runMiddlewares : List Middleware → Req → RawReply → Except SrvError Req
  | [], req, _ => .ok req
  | m :: rest, req, raw =>
    match m req (replyWrapper raw) with
    | .error e => .error e
    | .ok req' => runMiddlewares rest req' raw

/-- The per-route lifecycle fragment relevant to the middleware claim:
run the `preValidation` hook, then (only if it succeeded) the handler
with the wrapped reply. -/
def routePipeline (mws : List Middleware) (h : Handler) (req : Req) (raw : RawReply) :
    Except SrvError SentResponse :=
  match runMiddlewares mws req raw with
  | .error e => .error e
  | .ok req' => h req' (replyWrapper raw)

/-- Fastify dispatch: a rejected hook or handler promise is routed to
the global error handler, otherwise the handler's response is sent. -/
def dispatchRequest (mws : List Middleware) (h : Handler) (req : Req) (raw : RawReply) :
    SentResponse :=
  match routePipeline mws h req raw with
  | .error e => setErrorHandler e
  | .ok resp => resp

/-- C4: middlewares run sequentially in declared order, each receiving
the wrapped reply contract (first conjunct: the chain is the sequential
composition of its parts); if a middleware `m` rejects after the
middlewares before it succeeded, the response is the global error
handler's response for that error, independently of the middlewares
declared after `m` and of the handler — i.e. neither they nor the
handler run (second conjunct). -/
theorem c4_middleware_short_circuit :
    (∀ (l1 l2 : List Middleware) (req : Req) (raw : RawReply),
      runMiddlewares (l1 ++ l2) req raw =
        match runMiddlewares l1 req raw with
        | .error e => .error e
        | .ok req' => runMiddlewares l2 req' raw) ∧
    (∀ (l1 : List Middleware) (m : Middleware) (req req' : Req) (raw : RawReply)
        (e : SrvError),
      runMiddlewares l1 req raw = .ok req' →
      m req' (replyWrapper raw) = .error e →
      ∀ (l2 : List Middleware) (h : Handler),
        dispatchRequest (l1 ++ m :: l2) h req raw = setErrorHandler e) := by
  have happ : ∀ (l1 l2 : List Middleware) (req : Req) (raw : RawReply),
      runMiddlewares (l1 ++ l2) req raw =
        match runMiddlewares l1 req raw with
        | .error e => .error e
        | .ok req' => runMiddlewares l2 req' raw := by
    intro l1
    induction l1 with
    | nil => intro l2 req raw; rfl
    | cons m rest ih =>
      intro l2 req raw
      show (match m req (replyWrapper raw) with
            | .error e => (Except.error e : Except SrvError Req)
            | .ok r => runMiddlewares (rest ++ l2) r raw) = _
      cases hm : m req (replyWrapper raw) with
      | error e => simp [runMiddlewares, hm]
      | ok r => simp [runMiddlewares, hm, ih]
  refine ⟨happ, ?_⟩
  intro l1 m req req' raw e h1 h2 l2 h
  have hrun : runMiddlewares (l1 ++ m :: l2) req raw = .error e := by
    rw [happ l1 (m :: l2) req raw, h1]
    show (match m req' (replyWrapper raw) with
          | .error e => (.error e : Except SrvError Req)
          | .ok r => runMiddlewares l2 r raw) = .error e
    rw [h2]
  unfold dispatchRequest routePipeline
  rw [hrun]

/-- A middleware that rejects. -/
def mwBoom : Middleware := fun _ _ => .error (SrvError.generic none "boom")

/-- A middleware that records that it ran. -/
def mwMark : Middleware := fun req _ => .ok (req ++ ["m2"])

/-- A handler that replies 200. -/
def hOk : Handler := fun _ w => .ok (w.success (JSVal.num 200) (Json.str "hi"))

/-- Witness for `c4_middleware_short_circuit`: with `[mwBoom, mwMark]`,
the first middleware's rejection makes the response the global error
handler's output. -/
theorem c4_middleware_short_circuit_witness :
    runMiddlewares [] [] ⟨0⟩ = .ok [] ∧
    mwBoom [] (replyWrapper ⟨0⟩) = .error (SrvError.generic none "boom") ∧
    dispatchRequest [mwBoom, mwMark] hOk [] ⟨0⟩ =
      setErrorHandler (SrvError.generic none "boom") :=
  ⟨rfl, rfl,
    c4_middleware_short_circuit.2 [] mwBoom [] [] ⟨0⟩
      (SrvError.generic none "boom") rfl rfl [mwMark] hOk⟩

/-! ### Per-resource loading isolation (src/resources.ts,
`loadRouter` / `loadResource` / `loadResources`) -/

/-- The fields of a route declaration needed here. -/
structure RouteDef where
  method : String
  path : String
deriving DecidableEq

/-- A router module: optional `PREFIX` export plus named routes
(`const { PREFIX = '', ...router } = exports[routerName]`). -/
structure RouterModule where
  routePrefix : Option String
  routes : List (String × RouteDef)
deriving DecidableEq

/-- The URLs `loadRouter` registers for a successfully imported router
module. -/
def registeredRoutes (mod : RouterModule) : List String :=
  mod.routes.map (fun r => routeUrl mod.routePrefix r.2.path)

/-- The warning `loadRouter` logs when the import throws. -/
def routerWarning (file : String) : String := "Failed to load router " ++ file

/-- Outcome of loading: registered route URLs and logged warnings. -/
structure LoadResult where
  registered : List String
  warnings : List String
deriving DecidableEq

/-- The body of the `try` block of `loadRouter`: dynamic import of the
module, then registration of its routes (any throw propagates). -/
def loadRouterBody (imp : String → Except String RouterModule) (file : String) :
    Except String (List String) :=
  match imp file with
  | .error e => .error e
  | .ok mod => .ok (registeredRoutes mod)

/-- `loadRouter` (src/resources.ts): the `catch` turns any failure into a
logged warning with no registrations — it never rethrows. -/
def loadRouter (imp : String → Except String RouterModule) (file : String) : LoadResult :=
  match loadRouterBody imp file with
  | .error _ => { registered := [], warnings := [routerWarning file] }
  | .ok regs => { registered := regs, warnings := [] }

/-- A resource descriptor (role bindings discovered by
`loadResources`). -/
structure Resource where
  service : Option String
  controller : Option String
  router : Option String
deriving DecidableEq

/-- `loadResource`: only the `router` binding registers routes (the
service/controller wrappers — loaded when telemetry is on — catch their
own failures and register nothing, so they are omitted here). -/
def loadResource (imp : String → Except String RouterModule) (r : Resource) : LoadResult :=
  match r.router with
  | none => { registered := [], warnings := [] }
  | some f => loadRouter imp f

/-- `loadResources`: every resource is loaded (`Promise.all`); results
are collected in declaration order. -/
def loadResources (imp : String → Except String RouterModule) (rs : List Resource) :
    LoadResult :=
  match rs with
  | [] => { registered := [], warnings := [] }
  | r :: rest =>
    let h := loadResource imp r
    let t := loadResources imp rest
    { registered := h.registered ++ t.registered
      warnings := h.warnings ++ t.warnings }

/-- C5: a router module whose import throws contributes no routes and
exactly its warning, a router module that imports contributes exactly
its routes and no warning, the total result is the per-resource results
combined (so one resource's failure never disturbs another's
contribution), and every successfully registered route of any listed
resource is registered in the total — `loadResources` is total, so
startup always proceeds past registration. -/
theorem c5_resource_isolation :
    (∀ (imp : String → Except String RouterModule) (r : Resource) (rest : List Resource),
      (loadResources imp (r :: rest)).registered =
        (loadResource imp r).registered ++ (loadResources imp rest).registered ∧
      (loadResources imp (r :: rest)).warnings =
        (loadResource imp r).warnings ++ (loadResources imp rest).warnings) ∧
    (∀ (imp : String → Except String RouterModule) (r : Resource) (f : String)
        (e : String), r.router = some f → imp f = .error e →
      loadResource imp r = ⟨[], [routerWarning f]⟩) ∧
    (∀ (imp : String → Except String RouterModule) (r : Resource) (f : String)
        (mod : RouterModule), r.router = some f → imp f = .ok mod →
      loadResource imp r = ⟨registeredRoutes mod, []⟩) ∧
    (∀ (imp : String → Except String RouterModule) (rs : List Resource)
        (r : Resource) (u : String), r ∈ rs → u ∈ (loadResource imp r).registered →
      u ∈ (loadResources imp rs).registered) := by
  refine ⟨fun imp r rest => ⟨rfl, rfl⟩, ?_, ?_, ?_⟩
  · intro imp r f e hr he
    simp [loadResource, hr, loadRouter, loadRouterBody, he]
  · intro imp r f mod hr hm
    simp [loadResource, hr, loadRouter, loadRouterBody, hm]
  · intro imp rs
    induction rs with
    | nil => intro r u h; exact absurd h (List.not_mem_nil r)
    | cons r' rest ih =>
      intro r u hmem hu
      rcases List.mem_cons.mp hmem with h | h
      · subst h
        show u ∈ (loadResource imp r).registered ++ (loadResources imp rest).registered
        exact List.mem_append_left _ hu
      · show u ∈ (loadResource imp r').registered ++ (loadResources imp rest).registered
        exact List.mem_append_right _ (ih r u h hu)

/-- An import stub: resource A's router module throws, resource B's
loads a one-route module. -/
def impStub : String → Except String RouterModule := fun f =>
  if f = "dist/resources/b/b.router.js" then
    .ok ⟨some "/hello", [("sayHello", ⟨"GET", "/:name/"⟩)]⟩
  else .error "SyntaxError"

def resourceA : Resource := ⟨none, none, some "dist/resources/a/a.router.js"⟩

def resourceB : Resource := ⟨none, none, some "dist/resources/b/b.router.js"⟩

/-- Witness for `c5_resource_isolation`: A fails (warning, no routes)
while B's route is still registered in the combined result. -/
theorem c5_resource_isolation_witness :
    loadResource impStub resourceA = ⟨[], [routerWarning "dist/resources/a/a.router.js"]⟩ ∧
    "/hello/:name" ∈ (loadResources impStub [resourceA, resourceB]).registered :=
  ⟨c5_resource_isolation.2.1 impStub resourceA "dist/resources/a/a.router.js"
      "SyntaxError" rfl rfl,
    c5_resource_isolation.2.2.2 impStub [resourceA, resourceB] resourceB "/hello/:name"
      (by decide) (by decide)⟩

/-! ### Tracing instrumentation wrappers (src/resources.ts,
`loadService` / `loadController`) -/

/-- A JavaScript throwable: an `Error` instance (carrying a message) or
any other thrown value (`instanceof Error` fails). -/
inductive JsThrow where
  | jsErr (message : String)
  | jsNonError (v : String)
deriving DecidableEq

/-- Span status as set by the wrappers. -/
inductive SpanStatus where
  | unset
  | okStatus
  | errStatus (msg : String)
deriving DecidableEq

/-- The observable record of one span: attributes, final status,
recorded exceptions, and how many times `end()` ran. -/
structure SpanRec where
  attrs : List (String × String)
  status : SpanStatus
  recordedExceptions : List String
  endCount : Nat
deriving DecidableEq

def codeFunctionAttr : String := "code.function"

def codeNamespaceAttr : String := "code.namespace"

/-- The wrapper `loadService` installs around each service function
(the sync and async branches have identical bodies up to `await`, which
the embedding collapses): run inside a span, set OK status on success;
on a throw, record the exception and set ERROR status only when the
thrown value is an `Error` instance, then rethrow; `finally` ends the
span exactly once. -/
def wrapServiceCall (funcName serviceName : String) (f : Unit → Except JsThrow Json) :
    Except JsThrow Json × SpanRec :=
  let baseAttrs := [(codeFunctionAttr, funcName), (codeNamespaceAttr, serviceName)]
  match f () with
  | .ok v => (.ok v, ⟨baseAttrs, .okStatus, [], 1⟩)
  | .error (.jsErr m) => (.error (.jsErr m), ⟨baseAttrs, .errStatus m, [m], 1⟩)
  | .error (.jsNonError v) => (.error (.jsNonError v), ⟨baseAttrs, .unset, [], 1⟩)

/-- The wrapper `loadController` installs around each handler: the
handler runs inside a span as for services, but on success the wrapper
then additionally evaluates `reply.success(200, result)` with the
handler's returned value, appending a second terminal reply action. -/
def wrapControllerCall (handlerName controllerName : String)
    (h : Unit → List SentResponse × Except JsThrow Json) :
    (List SentResponse × Except JsThrow Json) × SpanRec :=
  let baseAttrs := [(codeFunctionAttr, handlerName), (codeNamespaceAttr, controllerName)]
  match h () with
  | (sends, .ok r) =>
    ((sends ++ [replySuccess (JSVal.num 200) r], .ok r), ⟨baseAttrs, .okStatus, [], 1⟩)
  | (sends, .error (.jsErr m)) =>
    ((sends, .error (.jsErr m)), ⟨baseAttrs, .errStatus m, [m], 1⟩)
  | (sends, .error (.jsNonError v)) =>
    ((sends, .error (.jsNonError v)), ⟨baseAttrs, .unset, [], 1⟩)

/-- A controller handler that sends one 201 reply and returns. -/
def c8Handler : Unit → List SentResponse × Except JsThrow Json :=
  fun _ => ([replySuccess (JSVal.num 201) (Json.str "made")], .ok (Json.str "handler-reply"))

/-- C8: the service wrapper passes results and errors through unchanged
(first conjunct), but the controller wrapper is *not* semantically
transparent: at the concrete handler `c8Handler` it performs an
additional reply action `reply.success(200, result)` after the handler
has already replied — two terminal reply actions instead of one. -/
theorem c8_controller_extra_reply :
    (∀ (fn sn : String) (f : Unit → Except JsThrow Json),
      (wrapServiceCall fn sn f).1 = f ()) ∧
    (wrapControllerCall "create" "HelloController" c8Handler).1.1 =
      (c8Handler ()).1 ++ [replySuccess (JSVal.num 200) (Json.str "handler-reply")] ∧
    (c8Handler ()).1.length = 1 ∧
    (wrapControllerCall "create" "HelloController" c8Handler).1.1.length = 2 := by
  refine ⟨?_, rfl, rfl, rfl⟩
  intro fn sn f
  unfold wrapServiceCall
  cases hf : f () with
  | ok v => simp
  | error e => cases e <;> simp

/-! ### Span pairing for a completed request (src/resources.ts,
`loadRouter` hooks, telemetry enabled) -/

/-- `(\.(\d{3})Z?)?$` after the dot: exactly three digits, then an
optional `Z`, then end of string. -/
def dateMillis : List Char → Bool
  | a :: b :: c :: rest =>
    a.isDigit && b.isDigit && c.isDigit && (rest.isEmpty || rest == ['Z'])
  | _ => false

/-- After the seconds: end, or the millisecond group. -/
def dateAfterSeconds : List Char → Bool
  | [] => true
  | '.' :: r => dateMillis r
  | _ => false

/-- After the minutes: end, the optional `(:0?(\d+))?` seconds group, or
the millisecond group directly. -/
def dateAfterMinutes : List Char → Bool
  | [] => true
  | ':' :: r =>
    let (ds, r2) := r.span Char.isDigit
    !ds.isEmpty && dateAfterSeconds r2
  | '.' :: r => dateMillis r
  | _ => false

/-- After the hour digits: `:0?(\d+)` minutes, then the optional
groups. -/
def dateAfterHour : List Char → Bool
  | ':' :: r =>
    let (mi, r2) := r.span Char.isDigit
    !mi.isEmpty && dateAfterMinutes r2
  | _ => false

/-- After the day digits: `[T ]`, then `0?(\d+)` hours. -/
def dateAfterDay : List Char → Bool
  | t :: r =>
    (t == 'T' || t == ' ') &&
      (let (hh, r2) := r.span Char.isDigit
       !hh.isEmpty && dateAfterHour r2)
  | [] => false

/-- After the month digits: `-0?(\d+)` day. -/
def dateAfterMonth : List Char → Bool
  | '-' :: r =>
    let (da, r2) := r.span Char.isDigit
    !da.isEmpty && dateAfterDay r2
  | _ => false

/-- `DATE_REGEX = /^(\d{4})-0?(\d+)-0?(\d+)[T ]0?(\d+):0?(\d+)(:0?(\d+))?(\.(\d{3})Z?)?$/`
as a recogniser: `0?(\d+)` accepts exactly the nonempty digit runs, so
each field is read as a maximal digit run followed by its delimiter. -/
def dateRegexMatch : List Char → Bool
  | y1 :: y2 :: y3 :: y4 :: '-' :: r =>
    y1.isDigit && y2.isDigit && y3.isDigit && y4.isDigit &&
      (let (mo, r2) := r.span Char.isDigit
       !mo.isEmpty && dateAfterMonth r2)
  | _ => false

/-- `DATE_REGEX.test(value)` on a string. -/
def testDateRegex (s : String) : Bool := dateRegexMatch s.data

mutual
/-- JavaScript runtime values seen by `parseDatesInObject`: JSON-like
values plus `Date` objects (which the conversion produces, carrying the
string they were constructed from). -/
inductive JVal where
  | null : JVal
  | jbool (b : Bool) : JVal
  | jnum (n : Int) : JVal
  | jstr (s : String) : JVal
  | jarr (xs : JArr) : JVal
  | jobj (fs : JObj) : JVal
  | jdate (s : String) : JVal

inductive JArr where
  | nil : JArr
  | cons (v : JVal) (rest : JArr) : JArr

inductive JObj where
  | nil : JObj
  | cons (k : String) (v : JVal) (rest : JObj) : JObj
end

mutual
/-- `parseDatesInObject` (src/utils.ts): a non-object (null, boolean,
number, string) is returned unchanged; otherwise a fresh object/array is
built by converting every value: a truthy string matching `DATE_REGEX`
becomes `new Date(value)`, any other `typeof 'object'` value is
converted recursively (a nested `Date` has no own enumerable keys, so it
collapses to `{}` — request bodies never contain one), and everything
else is copied. -/
def parseDatesInObject : JVal → JVal
  | .jobj fs => .jobj (parseFieldsJ fs)
  | .jarr xs => .jarr (parseElemsJ xs)
  | .jdate _ => .jobj JObj.nil
  | v => v

def parseFieldsJ : JObj → JObj
  | .nil => .nil
  | .cons k v rest => .cons k (parseDateValue v) (parseFieldsJ rest)

def parseElemsJ : JArr → JArr
  | .nil => .nil
  | .cons v rest => .cons (parseDateValue v) (parseElemsJ rest)

def parseDateValue : JVal → JVal
  | .jstr s => if s != "" && testDateRegex s then .jdate s else .jstr s
  | .jobj fs => .jobj (parseFieldsJ fs)
  | .jarr xs => .jarr (parseElemsJ xs)
  | .jdate _ => .jobj JObj.nil
  | v => v
end

mutual
/-- Date-free values: what a parsed (JSON / urlencoded) request body can
contain. -/
def noDatesV : JVal → Bool
  | .jdate _ => false
  | .jarr xs => noDatesA xs
  | .jobj fs => noDatesO fs
  | _ => true

def noDatesA : JArr → Bool
  | .nil => true
  | .cons v rest => noDatesV v && noDatesA rest

def noDatesO : JObj → Bool
  | .nil => true
  | .cons _ v rest => noDatesV v && noDatesO rest
end

mutual
/-- Modelled from the claim wording of C10: a structurally identical
copy in which every string value matching the date pattern (at any
nesting depth) is converted to a `Date` constructed from it, and every
other value is kept unchanged. -/
inductive ConvSpecV : JVal → JVal → Prop where
  | strDate (s : String) : testDateRegex s = true → ConvSpecV (.jstr s) (.jdate s)
  | strKeep (s : String) : testDateRegex s = false → ConvSpecV (.jstr s) (.jstr s)
  | nullKeep : ConvSpecV .null .null
  | boolKeep (b : Bool) : ConvSpecV (.jbool b) (.jbool b)
  | numKeep (n : Int) : ConvSpecV (.jnum n) (.jnum n)
  | arrConv {xs ys : JArr} : ConvSpecA xs ys → ConvSpecV (.jarr xs) (.jarr ys)
  | objConv {fs gs : JObj} : ConvSpecO fs gs → ConvSpecV (.jobj fs) (.jobj gs)

inductive ConvSpecA : JArr → JArr → Prop where
  | nil : ConvSpecA .nil .nil
  | cons {v w : JVal} {xs ys : JArr} :
      ConvSpecV v w → ConvSpecA xs ys → ConvSpecA (.cons v xs) (.cons w ys)

inductive ConvSpecO : JObj → JObj → Prop where
  | nil : ConvSpecO .nil .nil
  | cons (k : String) {v w : JVal} {fs gs : JObj} :
      ConvSpecV v w → ConvSpecO fs gs → ConvSpecO (.cons k v fs) (.cons k w gs)
end

/-- Modelled from the claim wording of C10, top level: an object or
array body is deep-converted, any other body is returned unchanged. -/
def BodyConvSpec (b b' : JVal) : Prop :=
  match b with
  | .jobj _ => ConvSpecV b b'
  | .jarr _ => ConvSpecV b b'
  | _ => b' = b

mutual
theorem convSpecV_parseDateValue :
    ∀ (v : JVal), noDatesV v = true → ConvSpecV v (parseDateValue v)
  | .jstr s, _ => by
    cases hts : testDateRegex s
    · have hcond : (s != "" && testDateRegex s) = false := by simp [hts]
      unfold parseDateValue
      rw [if_neg (by simp [hcond, hts])]
      exact ConvSpecV.strKeep s hts
    · have hs : (s != "") = true := by
        cases hq : (s != "")
        · exfalso
          have hse : s = "" := by simpa using hq
          subst hse
          exact absurd hts (by decide)
        · rfl
      unfold parseDateValue
      rw [if_pos (by simp [hs, hts])]
      exact ConvSpecV.strDate s hts
  | .jobj fs, h => by
    unfold parseDateValue
    exact ConvSpecV.objConv (convSpecO_parseFields fs h)
  | .jarr xs, h => by
    unfold parseDateValue
    exact ConvSpecV.arrConv (convSpecA_parseElems xs h)
  | .jdate s, h => by exact absurd h (by simp [noDatesV])
  | .null, _ => ConvSpecV.nullKeep
  | .jbool b, _ => ConvSpecV.boolKeep b
  | .jnum n, _ => ConvSpecV.numKeep n

theorem convSpecA_parseElems :
    ∀ (xs : JArr), noDatesA xs = true → ConvSpecA xs (parseElemsJ xs)
  | .nil, _ => ConvSpecA.nil
  | .cons v rest, h => by
    have h12 : noDatesV v = true ∧ noDatesA rest = true := by
      have h2 : (noDatesV v && noDatesA rest) = true := h
      simpa [Bool.and_eq_true] using h2
    exact ConvSpecA.cons (convSpecV_parseDateValue v h12.1)
      (convSpecA_parseElems rest h12.2)

theorem convSpecO_parseFields :
    ∀ (fs : JObj), noDatesO fs = true → ConvSpecO fs (parseFieldsJ fs)
  | .nil, _ => ConvSpecO.nil
  | .cons k v rest, h => by
    have h12 : noDatesV v = true ∧ noDatesO rest = true := by
      have h2 : (noDatesV v && noDatesO rest) = true := h
      simpa [Bool.and_eq_true] using h2
    exact ConvSpecO.cons k (convSpecV_parseDateValue v h12.1)
      (convSpecO_parseFields rest h12.2)
end

/-- The non-multipart branch of the global `preValidation` hook
(src/server.ts): `req.params ??= {}; req.query ??= {};
req.body = parseDatesInObject(req.body ?? {})`. -/
def preValidationTransform (params query body : Option JVal) : JVal × JVal × JVal :=
  (params.getD (.jobj .nil), query.getD (.jobj .nil),
    parseDatesInObject (body.getD (.jobj .nil)))

/-- C10: for every date-free (JSON-parsed) body, the `preValidation`
hook replaces the body with a structurally identical copy converting
exactly the date-pattern strings (at any depth) to `Date`s and keeping
every other value; non-object bodies pass through unchanged; absent
body, params and query default to the empty object. -/
theorem c10_date_normalisation :
    (∀ (v : JVal), noDatesV v = true → BodyConvSpec v (parseDatesInObject v)) ∧
    (∀ (s : String), parseDatesInObject (.jstr s) = .jstr s) ∧
    (∀ (n : Int), parseDatesInObject (.jnum n) = .jnum n) ∧
    (∀ (b : Bool), parseDatesInObject (.jbool b) = .jbool b) ∧
    (parseDatesInObject .null = .null) ∧
    (preValidationTransform none none none =
      (JVal.jobj .nil, JVal.jobj .nil, JVal.jobj .nil)) ∧
    (∀ (p q b : JVal), preValidationTransform (some p) (some q) (some b) =
      (p, q, parseDatesInObject b)) := by
  refine ⟨?_, fun s => rfl, fun n => rfl, fun b => rfl, rfl, rfl, fun p q b => rfl⟩
  intro v h
  cases v with
  | jobj fs => exact convSpecV_parseDateValue (.jobj fs) h
  | jarr xs => exact convSpecV_parseDateValue (.jarr xs) h
  | jdate s => exact absurd h (by simp [noDatesV])
  | null => rfl
  | jbool b => rfl
  | jnum n => rfl
  | jstr s => rfl

/-- A concrete date-free body with one date string and one number. -/
def c10Body : JVal :=
  .jobj (.cons "when" (.jstr "2024-01-02T03:04:05")
    (.cons "n" (.jnum 5) .nil))

/-- Witness for `c10_date_normalisation` at `c10Body`. -/
theorem c10_date_normalisation_witness :
    noDatesV c10Body = true ∧ BodyConvSpec c10Body (parseDatesInObject c10Body) :=
  ⟨by decide, c10_date_normalisation.1 c10Body (by decide)⟩

end Typerest
